import Mathlib

/-!
Verification development for the "dekun" marker repository (`src/python`).

The Python sources are shallowly embedded as follows:

* tensors are modelled at shape level: a tensor is represented by its shape,
  a `List ℕ` of dimension sizes (`[batch, channels, height, width]` for a
  4-dimensional tensor, `[channels, height, width]` for a 3-dimensional one);
* Python float arithmetic (aspect ratios, `round`) is modelled by exact
  rational arithmetic carried out on integer numerators and denominators;
* fallible Python code (raised exceptions) is modelled with `Except String`,
  the string carrying the exception kind and message;
* the learned numeric state of the network and of the optimizer is abstracted
  by type parameters `M` (model state) and `O` (optimizer state); a single
  gradient step is abstracted by a function argument.

Each embedded definition names the Python function it translates.
-/

deriving instance DecidableEq for Except

/-- Exception propagation: run `f` on the result of `x` unless `x` raised. -/
def exBind {α β : Type} (x : Except String α) (f : α → Except String β) :
    Except String β :=
  match x with
  | .error e => .error e
  | .ok a => f a

/-- Indexing that can raise: produce `err` when `x` is absent. -/
def optCase {α β : Type} (x : Option α) (err : β) (f : α → β) : β :=
  match x with
  | none => err
  | some a => f a

/-- Code-point lexicographic order on character lists, the order Python uses
to compare strings. `lexLe a b` is `a ≤ b`. -/
def lexLe : List Char → List Char → Bool
  | [], _ => true
  | _ :: _, [] => false
  | a :: as, b :: bs => if a < b then true else if b < a then false else lexLe as bs

/-- Python string comparison `a <= b` (used by `sorted`). -/
def strLe (a b : String) : Bool := lexLe a.data b.data

/-- Python `str.split("-")` on the character list of the string: splits at every
`'-'`, keeping empty pieces, never dropping characters. -/
def splitDash : List Char → List (List Char)
  | [] => [[]]
  | c :: rest =>
    let r := splitDash rest
    if c = '-' then [] :: r
    else
      match r with
      | [] => [[c]]
      | g :: gs => (c :: g) :: gs

/-- Python `filename.split("-")`, producing strings. -/
def splitParts (filename : String) : List String :=
  (splitDash filename.data).map String.mk

/-- Python `round` applied to the exact rational `a / b` (with `a, b : ℕ`,
`b > 0`): nearest integer, ties to the even neighbour (banker's rounding). -/
def roundHalfEven (a b : ℕ) : ℕ :=
  let q := a / b
  let r := a % b
  if 2 * r < b then q
  else if b < 2 * r then q + 1
  else if q % 2 = 0 then q else q + 1

/-- `utilities.check_device`: the torch backend availability probes are passed
in as booleans (`torch.cpu.is_available()`, `torch.xpu.is_available()`,
`torch.cuda.is_available()`). Mirrors the `if`/`elif` chain of the source:
`"rocm"` shares the CUDA probe. -/
def check_device (cpu_available xpu_available cuda_available : Bool)
    (device : String) : Bool :=
  if device = "cpu" ∧ cpu_available = true then true
  else if device = "xpu" ∧ xpu_available = true then true
  else if (device = "cuda" ∨ device = "rocm") ∧ cuda_available = true then true
  else false

/-- `utilities.fit_tensor` at shape level. Input: the shape of `tensor` and the
target `width`/`height`. Output: the shape of the letterboxed tensor together
with the placement geometry `(offset_x, offset_y, new_width, new_height)`.

The source compares `tensor_aspect > container_aspect` with
`tensor_aspect = shape[2]/shape[1]` and `container_aspect = width/height`
(float division); with both denominators nonzero this is exactly
`sw * height > width * sh`, the cross-multiplied form used here.
`round(width / tensor_aspect)` is `round` of the exact rational
`width * sh / sw`, and `round(height * tensor_aspect)` is `round` of
`height * sw / sh`. The placed size never exceeds the container, so the
offsets `(width - new_width) // 2` and `(height - new_height) // 2` are the
natural-number divisions used here. `torch.nn.functional.interpolate` rejects
a zero target size, and the padded result has spatial size exactly
`(height, width)`. -/
def fit_tensor_shape (shape : List ℕ) (width height : ℕ) :
    Except String (List ℕ × (ℕ × ℕ × ℕ × ℕ)) :=
  if shape.length ≠ 3 then .error (s!"ValueError: Unsupported tensor shape: {shape}")
  else
    match shape with
    | [c, sh, sw] =>
      if height = 0 ∨ sh = 0 then .error "ZeroDivisionError: division by zero"
      else
        let nwh : ℕ × ℕ :=
          if width * sh < sw * height then
            (width, roundHalfEven (width * sh) sw)
          else
            (roundHalfEven (height * sw) sh, height)
        let new_width := nwh.1
        let new_height := nwh.2
        let offset_x := (width - new_width) / 2
        let offset_y := (height - new_height) / 2
        if new_height = 0 ∨ new_width = 0 then
          .error "RuntimeError: Input and output sizes should be greater than 0"
        else
          .ok ([c, height, width], (offset_x, offset_y, new_width, new_height))
    | _ => .error "ValueError: Unsupported tensor shape"

/-- Shape semantics of `torch.nn.Conv2d` with square kernel `k`, padding `p`,
stride `st`, on a 4-dimensional input: checks the channel count, rejects a
kernel larger than the padded input, and computes the standard output size
`(d + 2p - k) / st + 1` on each spatial dimension. -/
def conv2dShape (cin cout k p st : ℕ) : List ℕ → Except String (List ℕ)
  | [b, c, h, w] =>
    if c ≠ cin then .error "RuntimeError: expected input channels mismatch"
    else if h + 2 * p < k ∨ w + 2 * p < k then
      .error "RuntimeError: Kernel size cannot be greater than actual input size"
    else .ok [b, cout, (h + 2 * p - k) / st + 1, (w + 2 * p - k) / st + 1]
  | _ => .error "RuntimeError: expected 4D input to conv2d"

/-- Shape semantics of `torch.nn.MaxPool2d(kernel_size=2, stride=2)`. -/
def maxPool2Shape : List ℕ → Except String (List ℕ)
  | [b, c, h, w] =>
    if h < 2 ∨ w < 2 then .error "RuntimeError: Output size is too small"
    else .ok [b, c, (h - 2) / 2 + 1, (w - 2) / 2 + 1]
  | _ => .error "RuntimeError: expected 4D input to max_pool2d"

/-- Shape semantics of `torch.nn.ConvTranspose2d(cin, cout, kernel_size=2,
stride=2)`: output spatial size `(d - 1) * 2 + 2`. -/
def convTranspose2Shape (cin cout : ℕ) : List ℕ → Except String (List ℕ)
  | [b, c, h, w] =>
    if c ≠ cin then .error "RuntimeError: expected input channels mismatch"
    else if h = 0 ∨ w = 0 then .error "RuntimeError: Output size is too small"
    else .ok [b, cout, (h - 1) * 2 + 2, (w - 1) * 2 + 2]
  | _ => .error "RuntimeError: expected 4D input to conv_transpose2d"

/-- Shape semantics of `torch.cat((a, b), dim=1)` on 4-dimensional tensors:
all dimensions but the channel one must agree, channels add up. -/
def catShape : List ℕ → List ℕ → Except String (List ℕ)
  | [b1, c1, h1, w1], [b2, c2, h2, w2] =>
    if b1 = b2 ∧ h1 = h2 ∧ w1 = w2 then .ok [b1, c1 + c2, h1, w1]
    else .error "RuntimeError: Sizes of tensors must match except in dimension 1"
  | _, _ => .error "RuntimeError: expected 4D inputs to cat"

/-- Shape semantics of `torch.nn.BatchNorm2d(nf)`: the shape is preserved and
the channel count must match; in training mode (`module.training` — the state
a freshly constructed module is in, toggled by `model.train()` /
`model.eval()`) PyTorch additionally verifies that every channel sees more
than one value, raising a `ValueError` when `batch * H * W == 1`. -/
def batchNorm2dShape (training : Bool) (nf : ℕ) : List ℕ → Except String (List ℕ)
  | [b, c, h, w] =>
    if c ≠ nf then
      .error "RuntimeError: running_mean should contain the number of channels"
    else if training = true ∧ b * h * w = 1 then
      .error "ValueError: Expected more than 1 value per channel when training"
    else .ok [b, c, h, w]
  | _ => .error "RuntimeError: expected 4D input to batch_norm"

/-- `unet.DoubleConvolutionalBlock` at shape level:
`Conv2d(_, _, 3, padding=1)`, `BatchNorm2d`, `ReLU` (shape-preserving), twice;
`training` is the module mode the block runs in. -/
def doubleConvShape (training : Bool) (cin cout : ℕ) (s : List ℕ) :
    Except String (List ℕ) :=
  exBind (conv2dShape cin cout 3 1 1 s) fun s1 =>
  exBind (batchNorm2dShape training cout s1) fun s2 =>
  exBind (conv2dShape cout cout 3 1 1 s2) fun s3 =>
  batchNorm2dShape training cout s3

/-- The per-level feature widths built by `UNet.__init__`:
`features.append(64 if len(features) == 0 else features[-1] * 2)` repeated
`depth` times, i.e. `f, 2f, 4f, ...` starting from `f = 64`. -/
def featuresFrom (f : ℕ) : ℕ → List ℕ
  | 0 => []
  | n + 1 => f :: featuresFrom (f * 2) n

/-- The encoder loop of `UNet.forward`: for each feature width, a double
convolution (whose output is pushed onto the skip-connection list) followed by
the 2×2 max pool. The first argument is the running `in_channels`. -/
def runDowns : Bool → ℕ → List ℕ → List ℕ → Except String (List ℕ × List (List ℕ))
  | _, _, [], s => .ok (s, [])
  | training, cin, f :: fs, s =>
    exBind (doubleConvShape training cin f s) fun s1 =>
    exBind (maxPool2Shape s1) fun s2 =>
    exBind (runDowns training f fs s2) fun r => .ok (r.1, s1 :: r.2)

/-- The skip-connection shapes collected by the encoder loop starting from
shape `[b, _, h, w]` and first feature width `f`: level `k` contributes
`[b, f·2^k, h/2^k, w/2^k]`. Specification-side helper used to state the
encoder lemma. -/
def skipsFrom (b f h w : ℕ) : ℕ → List (List ℕ)
  | 0 => []
  | n + 1 => [b, f, h, w] :: skipsFrom b (f * 2) (h / 2) (w / 2) n

/-- The decoder loop of `UNet.forward`: for each feature width `f` (in reversed
order) a `ConvTranspose2d(f*2, f, 2, 2)`, concatenation with the matching skip
connection, and a double convolution `(f*2) → f`. The skip list is the reversed
encoder list, consumed in lockstep. -/
def runUps : Bool → List ℕ → List (List ℕ) → List ℕ → Except String (List ℕ)
  | _, [], [], s => .ok s
  | training, f :: fs, skip :: skips, s =>
    exBind (convTranspose2Shape (f * 2) f s) fun s1 =>
    exBind (catShape skip s1) fun s2 =>
    exBind (doubleConvShape training (f * 2) f s2) fun s3 =>
    runUps training fs skips s3
  | _, _, _, _ => .error "IndexError: list index out of range"

/-- The `ValueError` message raised by `UNet.forward` on a dimension mismatch. -/
def dimErrorMsg (w h factor : ℕ) : String :=
  s!"ValueError: Invalid input size: {w} x {h} (not divisible by {factor})"

/-- `UNet.forward` at shape level, for a `UNet(in_channels, out_channels, depth)`.

`UNet.__init__` reads `features[-1]` (an `IndexError` when `depth = 0`), so the
forward pass only exists when the feature list is nonempty. The forward pass
first reads `input.shape[3]` and `input.shape[2]` — an `IndexError` when the
input has fewer than 4 dimensions — and checks divisibility by
`factor = 2 ** len(self.downs) = 2 ** depth` before any layer is applied;
then come the encoder loop, the bottleneck double convolution
`features[-1] → features[-1] * 2`, the decoder loop over the reversed feature
and skip lists, and the final `Conv2d(features[0], out_channels, 1)`.
`training` is the module mode the pass runs in (a freshly constructed module
is in training mode; `Marker.mark` switches to evaluation mode first), which
governs the `BatchNorm2d` more-than-one-value-per-channel check. -/
def unetForwardShape (training : Bool) (in_channels out_channels depth : ℕ)
    (s : List ℕ) : Except String (List ℕ) :=
  let features := featuresFrom 64 depth
  optCase features.getLast? (.error "IndexError: list index out of range") fun f_last =>
  let factor := 2 ^ depth
  optCase (s.get? 3) (.error "IndexError: tuple index out of range") fun w =>
  optCase (s.get? 2) (.error "IndexError: tuple index out of range") fun h =>
  if w % factor ≠ 0 ∨ h % factor ≠ 0 then .error (dimErrorMsg w h factor)
  else
    exBind (runDowns training in_channels features s) fun r =>
    exBind (doubleConvShape training f_last (f_last * 2) r.1) fun s2 =>
    exBind (runUps training features.reverse r.2.reverse s2) fun s3 =>
    conv2dShape (features.headD 0) out_channels 1 0 1 s3

/-- Python slicing `start : start + len` of a dimension of size `dim`:
the slice clamps to the available range (offsets here are nonnegative). -/
def sliceLen (start len dim : ℕ) : ℕ :=
  min (start + len) dim - min start dim

/-- The crop `output[:, :, t1 : t1 + t3, t0 : t0 + t2]` performed by
`Marker.mark` with the placement geometry `(t0, t1, t2, t3) =
(offset_x, offset_y, new_width, new_height)`. Four indices into a tensor of
fewer than four dimensions raise an `IndexError`. -/
def cropShape (geom : ℕ × ℕ × ℕ × ℕ) : List ℕ → Except String (List ℕ)
  | [b, c, h, w] =>
    .ok [b, c, sliceLen geom.2.1 geom.2.2.2 h, sliceLen geom.1 geom.2.2.1 w]
  | _ => .error "IndexError: too many indices for tensor"

/-- Shape semantics of `torch.nn.functional.interpolate(x, size=(ih, iw))` on a
4-dimensional input. -/
def interpolateShape (s : List ℕ) (ih iw : ℕ) : Except String (List ℕ) :=
  match s with
  | [b, c, _, _] =>
    if ih = 0 ∨ iw = 0 then
      .error "RuntimeError: Input and output sizes should be greater than 0"
    else .ok [b, c, ih, iw]
  | _ => .error "RuntimeError: expected 4D input to interpolate"

/-- `Marker.mark` at shape level (`self.model.eval()` puts the network in
evaluation mode — hence `training := false` below — `no_grad` has no shape
effect, and `torch.sigmoid` preserves the shape): letterbox the image to the
marker's `(width, height)`, run the network, crop to the placement geometry,
and resize up to `(image.shape[2], image.shape[3])` — the latter two reads
raise an `IndexError` on a 3-dimensional image. -/
def markShape (width height depth : ℕ) (imageShape : List ℕ) :
    Except String (List ℕ) :=
  exBind (fit_tensor_shape imageShape width height) fun fitted =>
  exBind (unetForwardShape false 3 1 depth fitted.1) fun outShape =>
  exBind (cropShape fitted.2 outShape) fun cropped =>
  optCase (imageShape.get? 2) (.error "IndexError: tuple index out of range") fun ih =>
  optCase (imageShape.get? 3) (.error "IndexError: tuple index out of range") fun iw =>
  interpolateShape cropped ih iw

/-- `marker.model.Marker`: the model lifecycle unit. `M` abstracts the
architecture's learnable state (`self.model`'s weights), `O` the optimizer
state (`self.optimizer`); scalars mirror the source fields. The
`BCEWithLogitsLoss` criterion is stateless and not represented. -/
structure Marker (M O : Type) where
  device : String
  width : ℕ
  height : ℕ
  depth : ℕ
  loss : ℚ
  iterations : ℕ
  model_state : M
  optimizer_state : O

/-- `Marker.__init__(device, width, height, depth)`: fresh `UNet(3, 1, depth)`
weights (`init_model depth`) and a fresh Adam optimizer over them
(`init_optim`), `loss = 1.0`, `iterations = 0`. -/
def Marker.init {M O : Type} (init_model : ℕ → M) (init_optim : M → O)
    (device : String) (width height depth : ℕ) : Marker M O :=
  { device := device, width := width, height := height, depth := depth,
    loss := 1, iterations := 0,
    model_state := init_model depth,
    optimizer_state := init_optim (init_model depth) }

/-- The persisted snapshot written by `Marker.save`: the dictionary passed to
`torch.save`. -/
structure Snapshot (M O : Type) where
  width : ℕ
  height : ℕ
  depth : ℕ
  loss : ℚ
  iterations : ℕ
  model_state : M
  optimizer_state : O

/-- `Marker.save(path)`: serializes width/height/depth/loss/iterations and the
two state dicts. -/
def Marker.save {M O : Type} (m : Marker M O) : Snapshot M O :=
  { width := m.width, height := m.height, depth := m.depth,
    loss := m.loss, iterations := m.iterations,
    model_state := m.model_state, optimizer_state := m.optimizer_state }

/-- `Marker.load(device, path)`: rebuild via `Marker.__init__` with the
snapshot's width/height/depth, then overwrite the model and optimizer state
dicts, then overwrite `loss` and `iterations`. -/
def Marker.load {M O : Type} (init_model : ℕ → M) (init_optim : M → O)
    (device : String) (data : Snapshot M O) : Marker M O :=
  let marker := Marker.init init_model init_optim device data.width data.height data.depth
  { marker with
      model_state := data.model_state,
      optimizer_state := data.optimizer_state,
      loss := data.loss,
      iterations := data.iterations }

/-- The telemetry dictionary returned by `Marker.train` (the wall-clock
`duration` entry is real time and is not modelled). -/
structure Telemetry where
  loss : ℚ
  iterations : ℕ

/-- The batch loop of `Marker.train`: one abstract gradient step
(`zero_grad`, forward, `BCEWithLogitsLoss`, `backward`, `optimizer.step()`)
per batch, threading the numeric state and collecting the recorded
`loss.item()` values in order (the `average` list of the source). -/
def trainLoop {S B : Type} (step : S → B → S × ℚ) : S → List B → S × List ℚ
  | st, [] => (st, [])
  | st, batch :: rest =>
    let r1 := step st batch
    let r2 := trainLoop step r1.1 rest
    (r2.1, r1.2 :: r2.2)

/-- `Marker.train(loader)`: run the batch loop, then set
`loss = sum(average) / len(average)` (a `ZeroDivisionError` when the loader
yielded no batches — in that case `loss` and `iterations` are left untouched,
since they are only assigned after the loop), increment `iterations` by one,
and return the telemetry record. -/
def Marker.train {M O B : Type} (step : M × O → B → (M × O) × ℚ)
    (m : Marker M O) (batches : List B) : Marker M O × Except String Telemetry :=
  let r := trainLoop step (m.model_state, m.optimizer_state) batches
  let m1 : Marker M O := { m with model_state := r.1.1, optimizer_state := r.1.2 }
  if r.2.length = 0 then
    (m1, .error "ZeroDivisionError: division by zero")
  else
    ({ m1 with loss := r.2.sum / (r.2.length : ℚ), iterations := m.iterations + 1 },
     .ok { loss := r.2.sum / (r.2.length : ℚ), iterations := m.iterations + 1 })

/-- `utilities.Entry`: a dataset entry. The class defines exactly the two path
fields and no methods besides `__init__` (in particular no `exists`). -/
structure Entry where
  image_path : Option String
  mask_path : Option String
deriving DecidableEq

/-- Python dict update `map[id].field = path` / `map[id] = Entry(...)` on an
insertion-ordered dictionary, modelled as an association list: update in place
when the key exists, append otherwise. -/
def updateEntry (m : List (String × Entry)) (id : String) (f : Entry → Entry)
    (fresh : Entry) : List (String × Entry) :=
  match m with
  | [] => [(id, fresh)]
  | (k, e) :: rest =>
    if k = id then (k, f e) :: rest else (k, e) :: updateEntry rest id f fresh

/-- `os.path.join(directory, filename)` for a plain relative filename. -/
def pathJoin (directory filename : String) : String :=
  directory ++ "/" ++ filename

/-- One iteration of the discovery loop of `Dataset.__init__`, mirrored
verbatim from the source: the guard is `if filename[0] == "." or
len(parts) != 5:` (processing dotfiles and names whose hyphen count differs
from five, skipping everything else), inside which `parts[4]` raises an
`IndexError` whenever fewer than five parts exist, and is compared — extension
included — against `"image"` and `"mask"`. -/
def scanStep (directory : String) (entry_map : List (String × Entry))
    (filename : String) : Except String (List (String × Entry)) :=
  let path := pathJoin directory filename
  let parts := splitParts filename
  if filename.take 1 = "." ∨ parts.length ≠ 5 then
    let id := String.intercalate "-" (parts.take 4)
    match parts.get? 4 with
    | none => .error "IndexError: list index out of range"
    | some p4 =>
      if p4 = "image" then
        .ok (updateEntry entry_map id (fun e => { e with image_path := some path })
          { image_path := some path, mask_path := none })
      else if p4 = "mask" then
        .ok (updateEntry entry_map id (fun e => { e with mask_path := some path })
          { image_path := none, mask_path := some path })
      else .ok entry_map
  else .ok entry_map

/-- The discovery loop of `Dataset.__init__` over the directory listing
(the source calls `os.listdir()` — the process working directory — and keeps
only regular files; the embedding receives that file listing, in order). -/
def scanFiles (directory : String) : List String → List (String × Entry) →
    Except String (List (String × Entry))
  | [], m => .ok m
  | f :: fs, m =>
    match scanStep directory m f with
    | .error e => .error e
    | .ok m1 => scanFiles directory fs m1

/-- The filtering loop of `Dataset.__init__`: it deletes incomplete entries
from `self.entry_map` while iterating that same dict, so on the first
incomplete entry the deletion happens and the very next iterator step raises
`RuntimeError: dictionary changed size during iteration` (CPython checks the
dict size on every `next`, including the final one). When every entry is
complete, the ids are collected in insertion order. -/
def filterGo : List (String × Entry) → List String → Except String (List String)
  | [], acc => .ok acc.reverse
  | (id, e) :: rest, acc =>
    if e.image_path = none ∨ e.mask_path = none then
      .error "RuntimeError: dictionary changed size during iteration"
    else filterGo rest (id :: acc)

/-- Python `dict[key]` lookup on the association list. -/
def lookupEntry : List (String × Entry) → String → Option Entry
  | [], _ => none
  | (k, e) :: rest, id => if k = id then some e else lookupEntry rest id

/-- The `image_path` of an entry, used by the `date`/`size` sort keys. -/
def imagePathOf (m : List (String × Entry)) (id : String) : String :=
  match lookupEntry m id with
  | some e => e.image_path.getD ""
  | none => ""

/-- Stable insertion into a sorted list (Python's sorts are stable). -/
def insertSorted (le : String → String → Bool) (x : String) :
    List String → List String
  | [] => [x]
  | y :: ys => if le x y then x :: y :: ys else y :: insertSorted le x ys

/-- Stable sort by the boolean order `le`, extensionally the order produced by
Python's `sorted` / `list.sort`. -/
def insertionSort (le : String → String → Bool) : List String → List String
  | [] => []
  | x :: xs => insertSorted le x (insertionSort le xs)

/-- `Dataset.__init__(directory, sort)`: scan the file listing, drop incomplete
pairs (see `filterGo`), and order the id list: `"name"` sorts ascending
lexicographically; `"date"` and `"size"` sort descending by the image file's
creation time / size (`ctime` and `fsize` abstract `path.stat()`). Returns
`(entry_map, entry_list)`. -/
def datasetInit (directory : String) (filenames : List String) (sort : String)
    (ctime fsize : String → ℤ) :
    Except String (List (String × Entry) × List String) :=
  match scanFiles directory filenames [] with
  | .error e => .error e
  | .ok entry_map =>
    match filterGo entry_map [] with
    | .error e => .error e
    | .ok entry_list =>
      let sorted_list :=
        if sort = "name" then insertionSort strLe entry_list
        else if sort = "date" then
          insertionSort
            (fun a b => decide (-(ctime (imagePathOf entry_map a)) ≤ -(ctime (imagePathOf entry_map b))))
            entry_list
        else if sort = "size" then
          insertionSort
            (fun a b => decide (-(fsize (imagePathOf entry_map a)) ≤ -(fsize (imagePathOf entry_map b))))
            entry_list
        else entry_list
      .ok (entry_map, sorted_list)

/-- The entry-collection loop of `MarkerLoader.__init__`: for each listed id it
fetches the entry and evaluates `entry.exists()` — but `utilities.Entry`
defines no `exists` attribute, so the first listed entry raises
`AttributeError`. -/
def loaderGo (entry_map : List (String × Entry)) : List String →
    Except String (List Entry)
  | [] => .ok []
  | name :: _ =>
    match lookupEntry entry_map name with
    | none => .error "KeyError"
    | some _ => .error "AttributeError: Entry object has no attribute exists"

/-- `MarkerLoader.__init__(dataset, width, height)` over the constructed
dataset `(entry_map, entry_list)`: collects the entries whose `exists()` check
passes (see `loaderGo`). -/
def markerLoaderInit (entry_map : List (String × Entry)) (entry_list : List String)
    (_width _height : ℕ) : Except String (List Entry) :=
  loaderGo entry_map entry_list

/-- A concrete instantiation used to exercise the training theorems: the
numeric state is collapsed to a pair of counters and every gradient step
records a loss of `2`. -/
def demoStep : (ℕ × ℕ) → Unit → (ℕ × ℕ) × ℚ := fun st _ => (st, 2)

/-- A concrete freshly-created marker over the collapsed numeric state. -/
def demoMarker : Marker ℕ ℕ :=
  { device := "cpu", width := 4, height := 4, depth := 1, loss := 1,
    iterations := 0, model_state := 0, optimizer_state := 0 }

/-! ### Basic reduction lemmas -/

/-- `exBind` over a success. -/
theorem exBind_ok {α β : Type} (a : α) (f : α → Except String β) :
    exBind (.ok a) f = f a := rfl

/-- `exBind` over a raised exception. -/
theorem exBind_error {α β : Type} (e : String) (f : α → Except String β) :
    exBind (.error e) f = .error e := rfl

/-- `optCase` over a present value. -/
theorem optCase_some {α β : Type} (a : α) (err : β) (f : α → β) :
    optCase (some a) err f = f a := rfl

/-- `optCase` over an absent value. -/
theorem optCase_none {α β : Type} (err : β) (f : α → β) :
    optCase none err f = err := rfl

/-! ### C10: device capability probe -/

/-- C10: `check_device` returns `True` exactly when the device string is one of
`"cpu"`, `"xpu"`, `"cuda"`, `"rocm"` and the corresponding torch backend
reports availability, with `"rocm"` sharing the CUDA probe; every other string
yields `False`. -/
theorem check_device_spec (cpu_available xpu_available cuda_available : Bool)
    (device : String) :
    check_device cpu_available xpu_available cuda_available device = true ↔
      ((device = "cpu" ∧ cpu_available = true) ∨
       (device = "xpu" ∧ xpu_available = true) ∨
       ((device = "cuda" ∨ device = "rocm") ∧ cuda_available = true)) := by
  unfold check_device
  split_ifs with h1 h2 h3 <;> simp_all

/-! ### C9 and C2: the training loop -/

/-- The batch loop records exactly one loss value per batch. -/
theorem trainLoop_length {S B : Type} (step : S → B → S × ℚ) :
    ∀ (st : S) (bs : List B), (trainLoop step st bs).2.length = bs.length := by
  intro st bs
  induction bs generalizing st with
  | nil => rfl
  | cons b rest ih => simp [trainLoop, ih]

/-- C9: a batch iterable yielding zero batches makes `Marker.train` fail with
the division by zero from `sum(average) / len(average)`, and the marker's
`loss` and `iterations` are left unmodified (they are only assigned after the
loop completes). -/
theorem marker_train_empty {M O B : Type} (step : M × O → B → (M × O) × ℚ)
    (m : Marker M O) :
    (Marker.train step m ([] : List B)).2 = .error "ZeroDivisionError: division by zero" ∧
    (Marker.train step m ([] : List B)).1.loss = m.loss ∧
    (Marker.train step m ([] : List B)).1.iterations = m.iterations :=
  ⟨rfl, rfl, rfl⟩

/-- C2: over any batch list of length `N ≥ 1`, `Marker.train` records one loss
per batch, sets `loss` to the arithmetic mean of those `N` recorded values,
increments `iterations` by exactly one, and returns a telemetry record carrying
that same loss and iteration count. -/
theorem marker_train_mean {M O B : Type} (step : M × O → B → (M × O) × ℚ)
    (m : Marker M O) (batches : List B) (hb : 1 ≤ batches.length) :
    (trainLoop step (m.model_state, m.optimizer_state) batches).2.length = batches.length ∧
    (Marker.train step m batches).1.loss =
      (trainLoop step (m.model_state, m.optimizer_state) batches).2.sum / (batches.length : ℚ) ∧
    (Marker.train step m batches).1.iterations = m.iterations + 1 ∧
    (Marker.train step m batches).2 =
      .ok { loss := (trainLoop step (m.model_state, m.optimizer_state) batches).2.sum / (batches.length : ℚ),
            iterations := m.iterations + 1 } := by
  have hlen := trainLoop_length step (m.model_state, m.optimizer_state) batches
  have hne : ¬ (trainLoop step (m.model_state, m.optimizer_state) batches).2.length = 0 := by
    omega
  refine ⟨hlen, ?_, ?_, ?_⟩ <;> simp [Marker.train, if_neg hne, hlen]

/-- Witness for C2 at a one-batch loader. -/
theorem marker_train_mean_witness :
    (trainLoop demoStep (demoMarker.model_state, demoMarker.optimizer_state) [()]).2.length = ([()] : List Unit).length ∧
    (Marker.train demoStep demoMarker [()]).1.loss =
      (trainLoop demoStep (demoMarker.model_state, demoMarker.optimizer_state) [()]).2.sum / (([()] : List Unit).length : ℚ) ∧
    (Marker.train demoStep demoMarker [()]).1.iterations = demoMarker.iterations + 1 ∧
    (Marker.train demoStep demoMarker [()]).2 =
      .ok { loss := (trainLoop demoStep (demoMarker.model_state, demoMarker.optimizer_state) [()]).2.sum / (([()] : List Unit).length : ℚ),
            iterations := demoMarker.iterations + 1 } :=
  marker_train_mean demoStep demoMarker [()] (by decide)

/-! ### C1: persistence round trip -/

/-- C1: `Marker.load` of a `Marker.save` snapshot reproduces the original
marker's `width`, `height`, `depth`, `loss` and `iterations` (in particular a
marker saved after `k` train epochs reloads with `iterations = k`), carries
over the architecture weights and the optimizer state unchanged, and therefore
produces the same inference output on any image (here: the shape-level `mark`
pipeline, which together with the equality of the numeric states determines
the inference function). -/
theorem marker_save_load_roundtrip {M O : Type} (init_model : ℕ → M)
    (init_optim : M → O) (device : String) (m : Marker M O) :
    (Marker.load init_model init_optim device (Marker.save m)).width = m.width ∧
    (Marker.load init_model init_optim device (Marker.save m)).height = m.height ∧
    (Marker.load init_model init_optim device (Marker.save m)).depth = m.depth ∧
    (Marker.load init_model init_optim device (Marker.save m)).loss = m.loss ∧
    (Marker.load init_model init_optim device (Marker.save m)).iterations = m.iterations ∧
    (Marker.load init_model init_optim device (Marker.save m)).model_state = m.model_state ∧
    (Marker.load init_model init_optim device (Marker.save m)).optimizer_state = m.optimizer_state ∧
    ∀ imageShape : List ℕ,
      markShape (Marker.load init_model init_optim device (Marker.save m)).width
          (Marker.load init_model init_optim device (Marker.save m)).height
          (Marker.load init_model init_optim device (Marker.save m)).depth imageShape =
        markShape m.width m.height m.depth imageShape :=
  ⟨rfl, rfl, rfl, rfl, rfl, rfl, rfl, fun _ => rfl⟩

/-! ### C3: the inference pipeline on a 3-dimensional image -/

/-- C3: on a 3-dimensional image (the only rank `fit_tensor` accepts),
`Marker.mark` does not return a mask at all: `fit_tensor` produces an
unbatched 3-dimensional tensor which is fed directly to `UNet.forward`, whose
read of `input.shape[3]` raises an `IndexError`. Evaluated here for a
`Marker(_, 64, 64, 1)` on an image of shape `(3, 64, 64)`. -/
theorem mark_rank3_indexerror :
    markShape 64 64 1 [3, 64, 64] = .error "IndexError: tuple index out of range" := rfl

/-! ### C7: dataset discovery -/

/-- C7: for a directory holding exactly `a-b-c-d-image.png` and
`a-b-c-d-mask.png`, `Dataset.__init__` produces no entry at all (the claim
expects one entry with id `"a-b-c-d"`): the guard
`if filename[0] == "." or len(parts) != 5:` skips every non-dotfile whose name
has exactly five hyphen-separated parts, and `parts[4]` would be
`"image.png"`, not `"image"`, anyway. -/
theorem dataset_pair_scan_cex :
    datasetInit "dataset" ["a-b-c-d-image.png", "a-b-c-d-mask.png"] "name"
      (fun _ => 0) (fun _ => 0) = .ok ([], []) := rfl

/-! ### C8: the loader over a dataset -/

/-- C8: over a dataset with one complete entry, `MarkerLoader.__init__` does
not collect the entry (as the claim expects): it evaluates `entry.exists()`,
an attribute `utilities.Entry` does not define, raising an `AttributeError`. -/
theorem marker_loader_attr_cex :
    markerLoaderInit
      [("a-b-c-d",
        { image_path := some "dataset/a-b-c-d-image.png",
          mask_path := some "dataset/a-b-c-d-mask.png" })]
      ["a-b-c-d"] 64 64 =
      .error "AttributeError: Entry object has no attribute exists" := rfl

/-! ### Layer-level lemmas for the U-Net shape semantics -/

/-- A `3×3` convolution with padding 1 and stride 1 preserves positive spatial
dimensions. -/
theorem conv3_ok (cin cout b h w : ℕ) (h1 : 1 ≤ h) (w1 : 1 ≤ w) :
    conv2dShape cin cout 3 1 1 [b, cin, h, w] = .ok [b, cout, h, w] := by
  simp only [conv2dShape]
  rw [if_neg (by omega : ¬ cin ≠ cin),
    if_neg (by omega : ¬ (h + 2 * 1 < 3 ∨ w + 2 * 1 < 3)),
    show (h + 2 * 1 - 3) / 1 + 1 = h by omega,
    show (w + 2 * 1 - 3) / 1 + 1 = w by omega]

/-- `BatchNorm2d` preserves the shape whenever the training-mode
one-value-per-channel situation is excluded. -/
theorem batchNorm_ok (training : Bool) (nf b h w : ℕ)
    (hbn : ¬(training = true ∧ b * h * w = 1)) :
    batchNorm2dShape training nf [b, nf, h, w] = .ok [b, nf, h, w] := by
  simp only [batchNorm2dShape]
  rw [if_neg (by omega : ¬ nf ≠ nf), if_neg hbn]

/-- A triple product with one factor at least two is never one. -/
theorem mul3_ne_one_of_two_le (b h w : ℕ) (h2 : 2 ≤ h) : b * h * w ≠ 1 := by
  intro habs
  have hdvd : h ∣ 1 := ⟨b * w, by rw [← habs]; ring⟩
  have := Nat.le_of_dvd (by norm_num) hdvd
  omega

/-- The double convolutional block preserves positive spatial dimensions and
maps the channel count `cin` to `cout`, provided its `BatchNorm2d` layers see
more than one value per channel when in training mode. -/
theorem doubleConv_ok (training : Bool) (cin cout b h w : ℕ) (h1 : 1 ≤ h)
    (w1 : 1 ≤ w) (hbn : ¬(training = true ∧ b * h * w = 1)) :
    doubleConvShape training cin cout [b, cin, h, w] = .ok [b, cout, h, w] := by
  simp only [doubleConvShape, conv3_ok cin cout b h w h1 w1, exBind_ok,
    batchNorm_ok training cout b h w hbn, conv3_ok cout cout b h w h1 w1]

/-- The `2×2` max pool halves spatial dimensions of size at least two. -/
theorem pool_ok (b c h w : ℕ) (h2 : 2 ≤ h) (w2 : 2 ≤ w) :
    maxPool2Shape [b, c, h, w] = .ok [b, c, h / 2, w / 2] := by
  simp only [maxPool2Shape]
  rw [if_neg (by omega : ¬ (h < 2 ∨ w < 2)),
    show (h - 2) / 2 + 1 = h / 2 by omega,
    show (w - 2) / 2 + 1 = w / 2 by omega]

/-- The `2×2` stride-2 transposed convolution doubles positive spatial
dimensions. -/
theorem convT_ok (cin cout b h w : ℕ) (h1 : 1 ≤ h) (w1 : 1 ≤ w) :
    convTranspose2Shape cin cout [b, cin, h, w] = .ok [b, cout, 2 * h, 2 * w] := by
  simp only [convTranspose2Shape]
  rw [if_neg (by omega : ¬ cin ≠ cin), if_neg (by omega : ¬ (h = 0 ∨ w = 0)),
    show (h - 1) * 2 + 2 = 2 * h by omega,
    show (w - 1) * 2 + 2 = 2 * w by omega]

/-- A `1×1` convolution with no padding preserves positive spatial
dimensions. -/
theorem conv1_ok (cin cout b h w : ℕ) (h1 : 1 ≤ h) (w1 : 1 ≤ w) :
    conv2dShape cin cout 1 0 1 [b, cin, h, w] = .ok [b, cout, h, w] := by
  simp only [conv2dShape]
  rw [if_neg (by omega : ¬ cin ≠ cin),
    if_neg (by omega : ¬ (h + 2 * 0 < 1 ∨ w + 2 * 0 < 1)),
    show (h + 2 * 0 - 1) / 1 + 1 = h by omega,
    show (w + 2 * 0 - 1) / 1 + 1 = w by omega]

/-! ### The feature-width schedule and the skip list -/

/-- The feature list of depth `n + 1` ends with the width `f * 2^n`. -/
theorem featuresFrom_concat (f n : ℕ) :
    featuresFrom f (n + 1) = featuresFrom f n ++ [f * 2 ^ n] := by
  induction n generalizing f with
  | zero => simp [featuresFrom]
  | succ n ih =>
    show f :: featuresFrom (f * 2) (n + 1) = (f :: featuresFrom (f * 2) n) ++ [f * 2 ^ (n + 1)]
    rw [ih, List.cons_append, show f * 2 * 2 ^ n = f * 2 ^ (n + 1) by ring]

/-- Reversing the feature list exposes the deepest width first. -/
theorem featuresFrom_reverse (f n : ℕ) :
    (featuresFrom f (n + 1)).reverse = f * 2 ^ n :: (featuresFrom f n).reverse := by
  rw [featuresFrom_concat, List.reverse_concat]

/-- `features[-1]` of a depth-`(n+1)` feature list. -/
theorem featuresFrom_getLast (f n : ℕ) :
    (featuresFrom f (n + 1)).getLast? = some (f * 2 ^ n) := by
  rw [featuresFrom_concat, List.getLast?_concat]

/-- The skip list of depth `n + 1` ends with the deepest level's shape. -/
theorem skipsFrom_concat (b f h w n : ℕ) :
    skipsFrom b f h w (n + 1) =
      skipsFrom b f h w n ++ [[b, f * 2 ^ n, h / 2 ^ n, w / 2 ^ n]] := by
  induction n generalizing f h w with
  | zero => simp [skipsFrom]
  | succ n ih =>
    show [b, f, h, w] :: skipsFrom b (f * 2) (h / 2) (w / 2) (n + 1) =
      ([b, f, h, w] :: skipsFrom b (f * 2) (h / 2) (w / 2) n) ++
        [[b, f * 2 ^ (n + 1), h / 2 ^ (n + 1), w / 2 ^ (n + 1)]]
    have e2 : h / 2 / 2 ^ n = h / 2 ^ (n + 1) := by
      rw [Nat.div_div_eq_div_mul, Nat.mul_comm 2 (2 ^ n), ← pow_succ]
    have e3 : w / 2 / 2 ^ n = w / 2 ^ (n + 1) := by
      rw [Nat.div_div_eq_div_mul, Nat.mul_comm 2 (2 ^ n), ← pow_succ]
    rw [ih, List.cons_append, show f * 2 * 2 ^ n = f * 2 ^ (n + 1) by ring, e2, e3]

/-- Reversing the skip list exposes the deepest level first. -/
theorem skipsFrom_reverse (b f h w n : ℕ) :
    (skipsFrom b f h w (n + 1)).reverse =
      [b, f * 2 ^ n, h / 2 ^ n, w / 2 ^ n] :: (skipsFrom b f h w n).reverse := by
  rw [skipsFrom_concat, List.reverse_concat]

/-! ### The encoder and decoder loops -/

/-- The encoder loop over a depth-`(n+1)` feature schedule starting at width
`f`: on an input `[b, cin, h, w]` with `h, w` positive and divisible by
`2^(n+1)`, it succeeds, halving the spatial dimensions once per level and
collecting the skip shapes. -/
theorem runDowns_spec :
    ∀ (n : ℕ) (training : Bool) (cin f b h w : ℕ),
      0 < h → 0 < w → 2 ^ (n + 1) ∣ h → 2 ^ (n + 1) ∣ w →
      runDowns training cin (featuresFrom f (n + 1)) [b, cin, h, w] =
        .ok ([b, f * 2 ^ n, h / 2 ^ (n + 1), w / 2 ^ (n + 1)],
          skipsFrom b f h w (n + 1)) := by
  intro n
  induction n with
  | zero =>
    intro training cin f b h w h0 w0 hh hw
    have hh2 : 2 ≤ h := Nat.le_of_dvd h0 (by simpa using hh)
    have hw2 : 2 ≤ w := Nat.le_of_dvd w0 (by simpa using hw)
    show runDowns training cin (f :: featuresFrom (f * 2) 0) [b, cin, h, w] = _
    simp only [featuresFrom, runDowns]
    rw [doubleConv_ok training cin f b h w (by omega) (by omega)
      (fun hc => mul3_ne_one_of_two_le b h w hh2 hc.2)]
    simp only [exBind_ok]
    rw [pool_ok b f h w hh2 hw2]
    simp only [exBind_ok]
    simp [skipsFrom]
  | succ n ih =>
    intro training cin f b h w h0 w0 hh hw
    have hp12 : (2:ℕ) ≤ 2 ^ (n + 2) := by
      calc (2:ℕ) = 2 ^ 1 := (pow_one 2).symm
      _ ≤ 2 ^ (n + 2) := Nat.pow_le_pow_right (by norm_num) (by omega)
    have h2 : 2 ≤ h := le_trans hp12 (Nat.le_of_dvd h0 hh)
    have w2 : 2 ≤ w := le_trans hp12 (Nat.le_of_dvd w0 hw)
    obtain ⟨k, hk⟩ := hh
    obtain ⟨l, hl⟩ := hw
    have hh' : 2 ^ (n + 1) ∣ h / 2 := by
      rw [hk, show 2 ^ (n + 2) * k = 2 * (2 ^ (n + 1) * k) by ring,
        Nat.mul_div_cancel_left _ (show (0:ℕ) < 2 by norm_num)]
      exact dvd_mul_right _ _
    have hw' : 2 ^ (n + 1) ∣ w / 2 := by
      rw [hl, show 2 ^ (n + 2) * l = 2 * (2 ^ (n + 1) * l) by ring,
        Nat.mul_div_cancel_left _ (show (0:ℕ) < 2 by norm_num)]
      exact dvd_mul_right _ _
    have hhp : 0 < h / 2 := Nat.div_pos h2 (by norm_num)
    have hwp : 0 < w / 2 := Nat.div_pos w2 (by norm_num)
    have e2 : h / 2 / 2 ^ (n + 1) = h / 2 ^ (n + 2) := by
      rw [Nat.div_div_eq_div_mul, Nat.mul_comm 2 (2 ^ (n + 1)), ← pow_succ]
    have e3 : w / 2 / 2 ^ (n + 1) = w / 2 ^ (n + 2) := by
      rw [Nat.div_div_eq_div_mul, Nat.mul_comm 2 (2 ^ (n + 1)), ← pow_succ]
    rw [show runDowns training cin (featuresFrom f (n + 2)) [b, cin, h, w] =
        exBind (doubleConvShape training cin f [b, cin, h, w]) (fun s1 =>
        exBind (maxPool2Shape s1) fun s2 =>
        exBind (runDowns training f (featuresFrom (f * 2) (n + 1)) s2) fun r =>
          Except.ok (r.1, s1 :: r.2)) from rfl]
    rw [doubleConv_ok training cin f b h w (by omega) (by omega)
      (fun hc => mul3_ne_one_of_two_le b h w h2 hc.2)]
    simp only [exBind_ok]
    rw [pool_ok b f h w h2 w2]
    simp only [exBind_ok]
    rw [ih training f (f * 2) b (h / 2) (w / 2) hhp hwp hh' hw']
    simp only [exBind_ok]
    simp [skipsFrom, e2, e3, show f * 2 * 2 ^ n = f * 2 ^ (n + 1) by ring]

/-- The decoder loop over the reversed depth-`n` feature schedule and reversed
skip list: starting from the bottleneck output `[b, f·2^n, h/2^n, w/2^n]`, it
succeeds and restores the original spatial dimensions and the width `f`. -/
theorem runUps_spec :
    ∀ (n : ℕ) (training : Bool) (f b h w : ℕ),
      0 < h → 0 < w → 2 ^ n ∣ h → 2 ^ n ∣ w →
      runUps training (featuresFrom f n).reverse (skipsFrom b f h w n).reverse
        [b, f * 2 ^ n, h / 2 ^ n, w / 2 ^ n] = .ok [b, f, h, w] := by
  intro n
  induction n with
  | zero =>
    intro training f b h w _ _ _ _
    show runUps training (featuresFrom f 0).reverse (skipsFrom b f h w 0).reverse _ = _
    simp [featuresFrom, skipsFrom, runUps]
  | succ n ih =>
    intro training f b h w h0 w0 hh hw
    obtain ⟨k, hk⟩ := hh
    obtain ⟨l, hl⟩ := hw
    have hkpos : 0 < k := by
      rcases Nat.eq_zero_or_pos k with rfl | hkp
      · rw [hk] at h0; simp at h0
      · exact hkp
    have hlpos : 0 < l := by
      rcases Nat.eq_zero_or_pos l with rfl | hlp
      · rw [hl] at w0; simp at w0
      · exact hlp
    have hd1 : h / 2 ^ (n + 1) = k := by
      rw [hk]; exact Nat.mul_div_cancel_left _ (pow_pos (by norm_num) _)
    have wd1 : w / 2 ^ (n + 1) = l := by
      rw [hl]; exact Nat.mul_div_cancel_left _ (pow_pos (by norm_num) _)
    have hd2 : h / 2 ^ n = 2 * k := by
      rw [hk, show 2 ^ (n + 1) * k = 2 ^ n * (2 * k) by ring]
      exact Nat.mul_div_cancel_left _ (pow_pos (by norm_num) _)
    have wd2 : w / 2 ^ n = 2 * l := by
      rw [hl, show 2 ^ (n + 1) * l = 2 ^ n * (2 * l) by ring]
      exact Nat.mul_div_cancel_left _ (pow_pos (by norm_num) _)
    rw [featuresFrom_reverse, skipsFrom_reverse]
    simp only [runUps]
    rw [hd1, wd1, hd2, wd2]
    rw [show f * 2 ^ (n + 1) = f * 2 ^ n * 2 by ring]
    rw [convT_ok (f * 2 ^ n * 2) (f * 2 ^ n) b k l hkpos hlpos]
    simp only [exBind_ok]
    rw [show catShape [b, f * 2 ^ n, 2 * k, 2 * l] [b, f * 2 ^ n, 2 * k, 2 * l] =
        .ok [b, f * 2 ^ n + f * 2 ^ n, 2 * k, 2 * l] by simp [catShape]]
    simp only [exBind_ok]
    rw [show f * 2 ^ n + f * 2 ^ n = f * 2 ^ n * 2 by ring]
    rw [doubleConv_ok training (f * 2 ^ n * 2) (f * 2 ^ n) b (2 * k) (2 * l)
      (by omega) (by omega)
      (fun hc => mul3_ne_one_of_two_le b (2 * k) (2 * l) (by omega) hc.2)]
    simp only [exBind_ok]
    have happ := ih training f b h w h0 w0 ⟨2 * k, by rw [hk]; ring⟩
      ⟨2 * l, by rw [hl]; ring⟩
    rw [hd2, wd2] at happ
    exact happ

/-! ### C4 and C5: the U-Net forward pass -/

/-- C4: for every depth ≥ 1, a 4-dimensional input whose spatial height or
width is not divisible by `2^depth` makes `UNet.forward` return the
descriptive dimension-mismatch `ValueError` — the check precedes the encoder,
bottleneck, decoder and final convolution in the embedding exactly as it
precedes every layer application in the source. -/
theorem unet_invalid_dims_error (training : Bool)
    (in_channels out_channels depth b c h w : ℕ)
    (hd : 1 ≤ depth) (hbad : ¬ 2 ^ depth ∣ w ∨ ¬ 2 ^ depth ∣ h) :
    unetForwardShape training in_channels out_channels depth [b, c, h, w] =
      .error (dimErrorMsg w h (2 ^ depth)) := by
  obtain ⟨n, rfl⟩ : ∃ n, depth = n + 1 := ⟨depth - 1, by omega⟩
  have hcond : w % 2 ^ (n + 1) ≠ 0 ∨ h % 2 ^ (n + 1) ≠ 0 := by
    rcases hbad with hb | hb
    · exact Or.inl fun hmod => hb (Nat.dvd_iff_mod_eq_zero.mpr hmod)
    · exact Or.inr fun hmod => hb (Nat.dvd_iff_mod_eq_zero.mpr hmod)
  simp only [unetForwardShape]
  rw [featuresFrom_getLast 64 n]
  simp only [optCase_some]
  rw [show ([b, c, h, w] : List ℕ).get? 3 = some w from rfl]
  simp only [optCase_some]
  rw [show ([b, c, h, w] : List ℕ).get? 2 = some h from rfl]
  simp only [optCase_some]
  rw [if_pos hcond]

/-- Witness for C4: a freshly constructed (training-mode) depth-1 network with
height 3 not divisible by 2. -/
theorem unet_invalid_dims_error_witness :
    unetForwardShape true 3 1 1 [1, 3, 3, 4] = .error (dimErrorMsg 4 3 (2 ^ 1)) :=
  unet_invalid_dims_error true 3 1 1 1 3 3 4 (by decide) (Or.inr (by decide))

/-- C5 (amended): for every depth ≥ 1 and every shape `(b, 3, h, w)` with `h`
and `w` positive and divisible by `2^depth` and
`b * (h / 2^depth) * (w / 2^depth) ≠ 1` — so that every `BatchNorm2d` of the
freshly constructed, training-mode network sees more than one value per
channel (the bottleneck, at the coarsest resolution, is the binding layer) —
`UNet(3, 1, depth)` produces shape `(b, 1, h, w)`. -/
theorem unet_output_shape (depth b h w : ℕ) (hd : 1 ≤ depth) (h0 : 0 < h)
    (w0 : 0 < w) (hh : 2 ^ depth ∣ h) (hw : 2 ^ depth ∣ w)
    (hbn : b * (h / 2 ^ depth) * (w / 2 ^ depth) ≠ 1) :
    unetForwardShape true 3 1 depth [b, 3, h, w] = .ok [b, 1, h, w] := by
  obtain ⟨n, rfl⟩ : ∃ n, depth = n + 1 := ⟨depth - 1, by omega⟩
  have hhp : 0 < h / 2 ^ (n + 1) :=
    Nat.div_pos (Nat.le_of_dvd h0 hh) (pow_pos (by norm_num) _)
  have hwp : 0 < w / 2 ^ (n + 1) :=
    Nat.div_pos (Nat.le_of_dvd w0 hw) (pow_pos (by norm_num) _)
  have hcond : ¬ (w % 2 ^ (n + 1) ≠ 0 ∨ h % 2 ^ (n + 1) ≠ 0) := by
    push_neg
    exact ⟨Nat.dvd_iff_mod_eq_zero.mp hw, Nat.dvd_iff_mod_eq_zero.mp hh⟩
  simp only [unetForwardShape]
  rw [featuresFrom_getLast 64 n]
  simp only [optCase_some]
  rw [show ([b, 3, h, w] : List ℕ).get? 3 = some w from rfl]
  simp only [optCase_some]
  rw [show ([b, 3, h, w] : List ℕ).get? 2 = some h from rfl]
  simp only [optCase_some]
  rw [if_neg hcond]
  rw [runDowns_spec n true 3 64 b h w h0 w0 hh hw]
  simp only [exBind_ok]
  rw [doubleConv_ok true (64 * 2 ^ n) (64 * 2 ^ n * 2) b (h / 2 ^ (n + 1))
    (w / 2 ^ (n + 1)) (by omega) (by omega) (fun hc => hbn hc.2)]
  simp only [exBind_ok]
  rw [show (64:ℕ) * 2 ^ n * 2 = 64 * 2 ^ (n + 1) by ring]
  rw [runUps_spec (n + 1) true 64 b h w h0 w0 hh hw]
  simp only [exBind_ok]
  exact conv1_ok 64 1 b h w (by omega) (by omega)

/-- Witness for C5: depth 1 on shape (1, 3, 2, 4), whose bottleneck sees
1·1·2 = 2 values per channel. -/
theorem unet_output_shape_witness :
    unetForwardShape true 3 1 1 [1, 3, 2, 4] = .ok [1, 1, 2, 4] :=
  unet_output_shape 1 1 2 4 (by decide) (by decide) (by decide) (by decide)
    (by decide) (by decide)

/-- C5 counterexample to the claim as stated: both inputs have dimensions
divisible by `2^depth`, yet a freshly constructed (training-mode)
`UNet(3, 1, 1)` raises instead of producing the claimed shape. At
`(1, 3, 2, 2)` the bottleneck `BatchNorm2d` receives one value per channel
(`Expected more than 1 value per channel when training`); at `(1, 3, 0, 0)`
the very first `3×3` convolution rejects the empty input. -/
theorem unet_small_input_cex :
    unetForwardShape true 3 1 1 [1, 3, 2, 2] ≠ .ok [1, 1, 2, 2] ∧
    unetForwardShape true 3 1 1 [1, 3, 0, 0] ≠ .ok [1, 1, 0, 0] := by decide

/-! ### C6: the letterbox aspect law -/

/-- Python `round` of an exact integer is that integer. -/
theorem roundHalfEven_exact (a b : ℕ) (hb : 0 < b) :
    roundHalfEven (b * a) b = a := by
  simp only [roundHalfEven]
  rw [Nat.mul_div_cancel_left a hb, Nat.mul_mod_right]
  rw [if_pos (by omega : 2 * 0 < b)]

/-- C6: whenever `fit_tensor` succeeds on a 3-dimensional tensor of spatial
size `(sh, sw)` and target `(w, h)`: a source aspect ratio strictly greater
than the container's forces `new_width = w`; strictly smaller forces
`new_height = h`; exactly equal forces both (the equal case falls into the
`else` branch, whose rounding is exact there). -/
theorem fit_aspect_law (c sh sw w h : ℕ) (fitted : List ℕ) (ox oy nw nh : ℕ)
    (hok : fit_tensor_shape [c, sh, sw] w h = .ok (fitted, (ox, oy, nw, nh))) :
    ((sw : ℚ) / (sh : ℚ) > (w : ℚ) / (h : ℚ) → nw = w) ∧
    ((sw : ℚ) / (sh : ℚ) < (w : ℚ) / (h : ℚ) → nh = h) ∧
    ((sw : ℚ) / (sh : ℚ) = (w : ℚ) / (h : ℚ) → nw = w ∧ nh = h) := by
  simp only [fit_tensor_shape] at hok
  split_ifs at hok with hlen hzero hasp hg1 hg2
  all_goals simp at hok
  all_goals push_neg at hzero
  · -- width-binding branch: `tensor_aspect > container_aspect`
    obtain ⟨-, -, -, hnw, hnh⟩ := hok
    have hsh : sh ≠ 0 := hzero.2
    have hh0 : h ≠ 0 := hzero.1
    have hshq : (0:ℚ) < (sh : ℚ) := by exact_mod_cast Nat.pos_of_ne_zero hsh
    have hhq : (0:ℚ) < (h : ℚ) := by exact_mod_cast Nat.pos_of_ne_zero hh0
    have hlt2 : ((sw:ℚ) / (sh:ℚ) < (w:ℚ) / (h:ℚ)) ↔ sw * h < w * sh := by
      rw [div_lt_div_iff₀ hshq hhq]
      norm_cast
    have heqb : ((sw:ℚ) / (sh:ℚ) = (w:ℚ) / (h:ℚ)) ↔ sw * h = w * sh := by
      rw [div_eq_div_iff (ne_of_gt hshq) (ne_of_gt hhq)]
      norm_cast
    refine ⟨fun _ => hnw.symm, fun hlt => ?_, fun heq => ?_⟩
    · exact absurd (lt_trans (hlt2.mp hlt) hasp) (lt_irrefl _)
    · rw [heqb.mp heq] at hasp
      exact absurd hasp (lt_irrefl _)
  · -- height-binding branch: `tensor_aspect <= container_aspect`
    obtain ⟨-, -, -, hnw, hnh⟩ := hok
    have hsh : sh ≠ 0 := hzero.2
    have hh0 : h ≠ 0 := hzero.1
    have hshq : (0:ℚ) < (sh : ℚ) := by exact_mod_cast Nat.pos_of_ne_zero hsh
    have hhq : (0:ℚ) < (h : ℚ) := by exact_mod_cast Nat.pos_of_ne_zero hh0
    have hlt1 : ((w:ℚ) / (h:ℚ) < (sw:ℚ) / (sh:ℚ)) ↔ w * sh < sw * h := by
      rw [div_lt_div_iff₀ hhq hshq]
      norm_cast
    have heqb : ((sw:ℚ) / (sh:ℚ) = (w:ℚ) / (h:ℚ)) ↔ sw * h = w * sh := by
      rw [div_eq_div_iff (ne_of_gt hshq) (ne_of_gt hhq)]
      norm_cast
    refine ⟨fun hgt => ?_, fun _ => hnh.symm, fun heq => ?_⟩
    · exact absurd (hlt1.mp hgt) hasp
    · refine ⟨?_, hnh.symm⟩
      have hms : h * sw = sh * w := by
        rw [Nat.mul_comm h sw, heqb.mp heq, Nat.mul_comm w sh]
      rw [← hnw, hms, roundHalfEven_exact w sh (Nat.pos_of_ne_zero hsh)]

/-- Witness for C6: a 2×4 source into a 4×4 container (source aspect 2 against
container aspect 1, so the width binds and `new_width = 4`). -/
theorem fit_aspect_law_witness :
    (((4:ℕ):ℚ) / ((2:ℕ):ℚ) > ((4:ℕ):ℚ) / ((4:ℕ):ℚ) → (4:ℕ) = 4) ∧
    (((4:ℕ):ℚ) / ((2:ℕ):ℚ) < ((4:ℕ):ℚ) / ((4:ℕ):ℚ) → (2:ℕ) = 4) ∧
    (((4:ℕ):ℚ) / ((2:ℕ):ℚ) = ((4:ℕ):ℚ) / ((4:ℕ):ℚ) → (4:ℕ) = 4 ∧ (2:ℕ) = 4) :=
  fit_aspect_law 3 2 4 4 4 [3, 4, 4] 0 1 4 2 (by decide)
